import Mathlib

/-!
Shallow embedding of the linky-exporter core
(src/pkg/collectors/linky-standard-collector.go):
the frame reader (readSerial), the line decoder (proceedLine) and the
metric projection performed by Collect.
-/

set_option maxRecDepth 10000

/-- The horizontal-tab separator byte 0x09 used by strings.Split in proceedLine. -/
def tabChar : Char := '\x09'

/-- The frame-start control byte 0x02 (STX). -/
def stxChar : Char := '\x02'

/-- The frame-end control byte 0x03 (ETX). -/
def etxChar : Char := '\x03'

/-- Model of Go strconv.ParseUint's base-10 digit loop, returning the value the
Go call returns (errors ignored by the caller): 0 as soon as a non-digit is
met (ErrSyntax), the saturated maximum once the accumulator exceeds it
(ErrRange), otherwise the accumulated value. -/
def parseUintLoop (maxVal : Nat) : List Char → Nat → Nat
  | [], acc => acc
  | c :: cs, acc =>
    if c.isDigit then
      let n1 := acc * 10 + (c.toNat - 48)
      if n1 > maxVal then maxVal else parseUintLoop maxVal cs n1
    else 0

/-- Value of strconv.ParseUint(s, 10, w) with the error discarded, as the Go
code does; maxVal is 2^w - 1.  The empty string is a syntax error (value 0). -/
def goParseUint (s : String) (maxVal : Nat) : Nat :=
  parseUintLoop maxVal s.data 0

/-- Value of strconv.ParseInt(s, 10, 16) with the error discarded: optional
sign, magnitude parsed as a 64-bit unsigned number, then clamped to the
int16 range exactly as Go does (cutoff = 2^15). -/
def goParseInt16 (s : String) : Int :=
  match s.data with
  | [] => 0
  | c :: cs =>
    let neg : Bool := c = '-'
    let digits := if c = '-' ∨ c = '+' then cs else c :: cs
    match digits with
    | [] => 0
    | _ :: _ =>
      let un := parseUintLoop (2 ^ 64 - 1) digits 0
      if neg then
        if un > 2 ^ 15 then -(2 ^ 15 : Int) else -(un : Int)
      else
        if un ≥ 2 ^ 15 then (2 ^ 15 : Int) - 1 else (un : Int)

/-- Model of Go strings.ToLower restricted to ASCII letters, the only
characters occurring in the recognized field identifiers. -/
def charLower (c : Char) : Char :=
  if 'A' ≤ c ∧ c ≤ 'Z' then Char.ofNat (c.toNat + 32) else c

/-- strings.ToLower on a whole string. -/
def goToLower (s : String) : String := String.mk (s.data.map charLower)

/-- Model of Go strings.Contains(line, string(c)) for a single control
character: the byte values used (0x02, 0x03) cannot occur inside a
multi-byte UTF-8 character, so substring containment is character
membership. -/
def goContains (s : String) (c : Char) : Bool := s.data.any fun x => x = c

/-- Accumulator loop of Go strings.Split(line, "\t") (single-byte separator):
current chunk is held reversed. -/
def splitTabAux : List Char → List Char → List String
  | [], cur => [String.mk cur.reverse]
  | c :: cs, cur =>
    if c = tabChar then String.mk cur.reverse :: splitTabAux cs []
    else splitTabAux cs (c :: cur)

/-- strings.Split(line, string(0x09)): the list of tab-separated chunks,
always non-empty. -/
def splitTab (s : String) : List String := splitTabAux s.data []

/-- The linkyValues record of the source: one typed field per recognized
identifier, zero-initialised per collection cycle.  uint8/uint16/uint32
fields are Nats kept below their width's maximum by the saturating parser;
the signed 16-bit fields are Ints. -/
structure linkyValues where
  adsc : String := ""
  vtic : String := ""
  date : String := ""
  ngtf : String := ""
  ltarf : String := ""
  east : Nat := 0
  easf01 : Nat := 0
  easf02 : Nat := 0
  easf03 : Nat := 0
  easf04 : Nat := 0
  easf05 : Nat := 0
  easf06 : Nat := 0
  easf07 : Nat := 0
  easf08 : Nat := 0
  easf09 : Nat := 0
  easf10 : Nat := 0
  easd01 : Nat := 0
  easd02 : Nat := 0
  easd03 : Nat := 0
  easd04 : Nat := 0
  eait : Nat := 0
  erq1 : Nat := 0
  erq2 : Nat := 0
  erq3 : Nat := 0
  erq4 : Nat := 0
  irms1 : Nat := 0
  irms2 : Nat := 0
  irms3 : Nat := 0
  urms1 : Nat := 0
  urms2 : Nat := 0
  urms3 : Nat := 0
  pref : Nat := 0
  pcoup : Nat := 0
  sinsts : Nat := 0
  sinsts1 : Int := 0
  sinsts2 : Int := 0
  sinsts3 : Int := 0
  sinsti : Nat := 0
  stge : String := ""
  dpm1 : String := ""
  dpm1_timestamp : String := ""
  fpm1 : String := ""
  fpm1_timestamp : String := ""
  dpm2 : String := ""
  dpm2_timestamp : String := ""
  fpm2 : String := ""
  fpm2_timestamp : String := ""
  dpm3 : String := ""
  dpm3_timestamp : String := ""
  fpm3 : String := ""
  fpm3_timestamp : String := ""
  msg1 : String := ""
  msg2 : String := ""
  prm : String := ""
  relais : Nat := 0
  ntarf : String := ""
  njourf : String := ""
  njourf_1 : String := ""
  pjourf_1 : String := ""
  ppointe : String := ""
  deriving Repr, DecidableEq

/-- The zero value of linkyValues, as built at the top of Collect. -/
def initValues : linkyValues := {}

/-- The switch statement of proceedLine, acting on the token list produced by
the tab split.  Go's unchecked data[1] / data[2] accesses panic when the
index is out of range: that runtime panic is modelled by the result none. -/
def proceedTokens (v : linkyValues) (data : List String) : Option linkyValues :=
  let d0 := goToLower (data.getD 0 "")
  if d0 = "adsc" then (data.get? 1).map fun t => { v with adsc := t }
  else if d0 = "vtic" then (data.get? 1).map fun t => { v with vtic := t }
  else if d0 = "date" then (data.get? 1).map fun t => { v with date := t }
  else if d0 = "ngtf" then (data.get? 1).map fun t => { v with ngtf := t }
  else if d0 = "ltarf" then (data.get? 1).map fun t => { v with ltarf := t }
  else if d0 = "east" then
    (data.get? 1).map fun t => { v with east := goParseUint t (2 ^ 32 - 1) }
  else if d0 = "easf01" then
    (data.get? 1).map fun t => { v with easf01 := goParseUint t (2 ^ 32 - 1) }
  else if d0 = "easf02" then
    (data.get? 1).map fun t => { v with easf02 := goParseUint t (2 ^ 32 - 1) }
  else if d0 = "easf03" then
    (data.get? 1).map fun t => { v with easf03 := goParseUint t (2 ^ 32 - 1) }
  else if d0 = "easf04" then
    (data.get? 1).map fun t => { v with easf04 := goParseUint t (2 ^ 32 - 1) }
  else if d0 = "easf05" then
    (data.get? 1).map fun t => { v with easf05 := goParseUint t (2 ^ 32 - 1) }
  else if d0 = "easf06" then
    (data.get? 1).map fun t => { v with easf06 := goParseUint t (2 ^ 32 - 1) }
  else if d0 = "easf07" then
    (data.get? 1).map fun t => { v with easf07 := goParseUint t (2 ^ 32 - 1) }
  else if d0 = "easf08" then
    (data.get? 1).map fun t => { v with easf08 := goParseUint t (2 ^ 32 - 1) }
  else if d0 = "easf09" then
    (data.get? 1).map fun t => { v with easf09 := goParseUint t (2 ^ 32 - 1) }
  else if d0 = "easf10" then
    (data.get? 1).map fun t => { v with easf10 := goParseUint t (2 ^ 32 - 1) }
  else if d0 = "easd01" then
    (data.get? 1).map fun t => { v with easd01 := goParseUint t (2 ^ 32 - 1) }
  else if d0 = "easd02" then
    (data.get? 1).map fun t => { v with easd02 := goParseUint t (2 ^ 32 - 1) }
  else if d0 = "easd03" then
    (data.get? 1).map fun t => { v with easd03 := goParseUint t (2 ^ 32 - 1) }
  else if d0 = "easd04" then
    (data.get? 1).map fun t => { v with easd04 := goParseUint t (2 ^ 32 - 1) }
  else if d0 = "eait" then
    (data.get? 1).map fun t => { v with eait := goParseUint t (2 ^ 32 - 1) }
  else if d0 = "erq1" then
    (data.get? 1).map fun t => { v with erq1 := goParseUint t (2 ^ 32 - 1) }
  else if d0 = "erq2" then
    (data.get? 1).map fun t => { v with erq2 := goParseUint t (2 ^ 32 - 1) }
  else if d0 = "erq3" then
    (data.get? 1).map fun t => { v with erq3 := goParseUint t (2 ^ 32 - 1) }
  else if d0 = "erq4" then
    (data.get? 1).map fun t => { v with erq4 := goParseUint t (2 ^ 32 - 1) }
  else if d0 = "irms1" then
    (data.get? 1).map fun t => { v with irms1 := goParseUint t (2 ^ 16 - 1) }
  else if d0 = "irms2" then
    (data.get? 1).map fun t => { v with irms2 := goParseUint t (2 ^ 16 - 1) }
  else if d0 = "irms3" then
    (data.get? 1).map fun t => { v with irms3 := goParseUint t (2 ^ 16 - 1) }
  else if d0 = "urms1" then
    (data.get? 1).map fun t => { v with urms1 := goParseUint t (2 ^ 16 - 1) }
  else if d0 = "urms2" then
    (data.get? 1).map fun t => { v with urms2 := goParseUint t (2 ^ 16 - 1) }
  else if d0 = "urms3" then
    (data.get? 1).map fun t => { v with urms3 := goParseUint t (2 ^ 16 - 1) }
  else if d0 = "pref" then
    (data.get? 1).map fun t => { v with pref := goParseUint t (2 ^ 8 - 1) }
  else if d0 = "pcoup" then
    (data.get? 1).map fun t => { v with pcoup := goParseUint t (2 ^ 8 - 1) }
  else if d0 = "sinsts" then
    (data.get? 1).map fun t => { v with sinsts := goParseUint t (2 ^ 16 - 1) }
  else if d0 = "sinsts1" then
    (data.get? 1).map fun t => { v with sinsts1 := goParseInt16 t }
  else if d0 = "sinsts2" then
    (data.get? 1).map fun t => { v with sinsts2 := goParseInt16 t }
  else if d0 = "sinsts3" then
    (data.get? 1).map fun t => { v with sinsts3 := goParseInt16 t }
  else if d0 = "sinsti" then
    (data.get? 1).map fun t => { v with sinsti := goParseUint t (2 ^ 16 - 1) }
  else if d0 = "stge" then (data.get? 1).map fun t => { v with stge := t }
  else if d0 = "dpm1" then
    match data.get? 2, data.get? 1 with
    | some lb, some ts => some { v with dpm1 := lb, dpm1_timestamp := ts }
    | _, _ => none
  else if d0 = "fpm1" then
    match data.get? 2, data.get? 1 with
    | some lb, some ts => some { v with fpm1 := lb, fpm1_timestamp := ts }
    | _, _ => none
  else if d0 = "dpm2" then
    match data.get? 2, data.get? 1 with
    | some lb, some ts => some { v with dpm2 := lb, dpm2_timestamp := ts }
    | _, _ => none
  else if d0 = "fpm2" then
    match data.get? 2, data.get? 1 with
    | some lb, some ts => some { v with fpm2 := lb, fpm2_timestamp := ts }
    | _, _ => none
  else if d0 = "dpm3" then
    match data.get? 2, data.get? 1 with
    | some lb, some ts => some { v with dpm3 := lb, dpm3_timestamp := ts }
    | _, _ => none
  else if d0 = "fpm3" then
    match data.get? 2, data.get? 1 with
    | some lb, some ts => some { v with fpm3 := lb, fpm3_timestamp := ts }
    | _, _ => none
  else if d0 = "msg1" then (data.get? 1).map fun t => { v with msg1 := t }
  else if d0 = "msg2" then (data.get? 1).map fun t => { v with msg2 := t }
  else if d0 = "prm" then (data.get? 1).map fun t => { v with prm := t }
  else if d0 = "relais" then
    (data.get? 1).map fun t => { v with relais := goParseUint t (2 ^ 8 - 1) }
  else if d0 = "ntarf" then (data.get? 1).map fun t => { v with ntarf := t }
  else if d0 = "njourf" then (data.get? 1).map fun t => { v with njourf := t }
  else if d0 = "njourf+1" then (data.get? 1).map fun t => { v with njourf_1 := t }
  else if d0 = "pjourf+1" then (data.get? 1).map fun t => { v with pjourf_1 := t }
  else if d0 = "ppointe" then (data.get? 1).map fun t => { v with ppointe := t }
  else some v

/-- proceedLine of the source: split the line on 0x09, dispatch on the
lower-cased first token.  none models a Go index-out-of-range panic. -/
def proceedLine (v : linkyValues) (line : String) : Option linkyValues :=
  proceedTokens v (splitTab line)

/-- Left-to-right decoding of a list of in-frame lines, aborting on panic. -/
def decodeLines (v : linkyValues) : List String → Option linkyValues
  | [] => some v
  | l :: ls =>
    match proceedLine v l with
    | none => none
    | some v1 => decodeLines v1 ls

/-- One read from the serial stream: either a line (bufio ReadLine with the
terminator stripped) or a read failure (device error, EOF, timeout). -/
inductive LineRead where
  | line (s : String)
  | fail
  deriving Repr, DecidableEq

/-- Result of a collection cycle.  ok carries the completed snapshot;
streamErr is readSerial returning a non-nil error (recoverable, logged by
Collect); fatal is log.Fatal terminating the process (open failure);
panicked is a Go runtime panic escaping proceedLine. -/
inductive Outcome (α : Type) where
  | ok (a : α)
  | streamErr
  | fatal
  | panicked
  deriving Repr, DecidableEq

/-- The read loop of readSerial: stop successfully on an ETX line once
started, set started on an STX line, forward every line read while started
(including the STX line itself) to proceedLine.  Exhausting the stream is a
read failure (EOF). -/
def readSerialLoop : List LineRead → Bool → linkyValues → Outcome linkyValues
  | [], _, _ => .streamErr
  | .fail :: _, _, _ => .streamErr
  | .line s :: rest, started, v =>
    if started && goContains s etxChar then .ok v
    else
      let started1 := started || goContains s stxChar
      if started1 then
        match proceedLine v s with
        | none => .panicked
        | some v1 => readSerialLoop rest started1 v1
      else readSerialLoop rest started1 v

/-- readSerial of the source: openOk models whether serial.OpenPort
succeeds; on failure the code calls log.Fatal, terminating the process. -/
def readSerial (openOk : Bool) (stream : List LineRead) (v : linkyValues) :
    Outcome linkyValues :=
  if openOk then readSerialLoop stream false v else .fatal

/-- One metric sample pushed on the Prometheus channel by Collect.  Every
value the code emits (casts of the integer fields, the constant 1, and
pref/pcoup times 1000) is an exact integer, so the float64 value is
modelled as an Int. -/
structure Metric where
  name : String
  value : Int
  labels : List String
  deriving Repr, DecidableEq

/-- The fixed sequence of 37 samples Collect emits from a snapshot. -/
def project (v : linkyValues) : List Metric :=
  [ ⟨"linky_info", 1, [v.prm, v.adsc, v.vtic, v.date, v.ngtf, v.ltarf, v.stge, v.msg1, v.msg2, v.ntarf]⟩,
    ⟨"linky_index_watthours_total", (v.east : Int), [v.prm, "east"]⟩,
    ⟨"linky_index_watthours_total", (v.easf01 : Int), [v.prm, "easf01"]⟩,
    ⟨"linky_index_watthours_total", (v.easf02 : Int), [v.prm, "easf02"]⟩,
    ⟨"linky_index_watthours_total", (v.easf03 : Int), [v.prm, "easf03"]⟩,
    ⟨"linky_index_watthours_total", (v.easf04 : Int), [v.prm, "easf04"]⟩,
    ⟨"linky_index_watthours_total", (v.easf05 : Int), [v.prm, "easf05"]⟩,
    ⟨"linky_index_watthours_total", (v.easf06 : Int), [v.prm, "easf06"]⟩,
    ⟨"linky_index_watthours_total", (v.easf07 : Int), [v.prm, "easf07"]⟩,
    ⟨"linky_index_watthours_total", (v.easf08 : Int), [v.prm, "easf08"]⟩,
    ⟨"linky_index_watthours_total", (v.easf09 : Int), [v.prm, "easf09"]⟩,
    ⟨"linky_index_watthours_total", (v.easf10 : Int), [v.prm, "easf10"]⟩,
    ⟨"linky_index_watthours_total", (v.easd01 : Int), [v.prm, "easd01"]⟩,
    ⟨"linky_index_watthours_total", (v.easd02 : Int), [v.prm, "easd02"]⟩,
    ⟨"linky_index_watthours_total", (v.easd03 : Int), [v.prm, "easd03"]⟩,
    ⟨"linky_index_watthours_total", (v.easd04 : Int), [v.prm, "easd04"]⟩,
    ⟨"linky_index_watthours_total", (v.eait : Int), [v.prm, "eait"]⟩,
    ⟨"linky_index_watthours_total", (v.erq1 : Int), [v.prm, "erq1"]⟩,
    ⟨"linky_index_watthours_total", (v.erq2 : Int), [v.prm, "erq2"]⟩,
    ⟨"linky_index_watthours_total", (v.erq3 : Int), [v.prm, "erq3"]⟩,
    ⟨"linky_index_watthours_total", (v.erq4 : Int), [v.prm, "erq4"]⟩,
    ⟨"linky_current_amperes", (v.irms1 : Int), [v.prm, "1"]⟩,
    ⟨"linky_current_amperes", (v.irms2 : Int), [v.prm, "2"]⟩,
    ⟨"linky_current_amperes", (v.irms3 : Int), [v.prm, "3"]⟩,
    ⟨"linky_voltage_volts", (v.urms1 : Int), [v.prm, "1"]⟩,
    ⟨"linky_voltage_volts", (v.urms2 : Int), [v.prm, "2"]⟩,
    ⟨"linky_voltage_volts", (v.urms3 : Int), [v.prm, "3"]⟩,
    ⟨"linky_subscribed_power_voltamperes", (v.pref : Int) * 1000, [v.prm, "pref"]⟩,
    ⟨"linky_subscribed_power_voltamperes", (v.pcoup : Int) * 1000, [v.prm, "pcoup"]⟩,
    ⟨"linky_power_voltamperes", (v.sinsts : Int), [v.prm, "drawn", "sum"]⟩,
    ⟨"linky_power_voltamperes", v.sinsts1, [v.prm, "drawn", "1"]⟩,
    ⟨"linky_power_voltamperes", v.sinsts2, [v.prm, "drawn", "2"]⟩,
    ⟨"linky_power_voltamperes", v.sinsts3, [v.prm, "drawn", "3"]⟩,
    ⟨"linky_power_voltamperes", (v.sinsti : Int), [v.prm, "injected", "sum"]⟩,
    ⟨"linky_load_management_info", 1, [v.prm, v.dpm1, v.dpm1_timestamp, v.fpm1, v.fpm1_timestamp, v.dpm2, v.dpm2_timestamp, v.fpm2, v.fpm2_timestamp, v.dpm3, v.dpm3_timestamp, v.fpm3, v.fpm3_timestamp, v.ppointe]⟩,
    ⟨"linky_relays", (v.relais : Int), [v.prm, "relays"]⟩,
    ⟨"linky_provider_day_info", 1, [v.prm, v.njourf, v.njourf_1, v.pjourf_1]⟩ ]

/-- Collect of the source: build a fresh zero snapshot, run readSerial, and
on success emit the fixed sample list; on error log and emit nothing. -/
def Collect (openOk : Bool) (stream : List LineRead) : Outcome (List Metric) :=
  match readSerial openOk stream initValues with
  | .ok v => .ok (project v)
  | .streamErr => .streamErr
  | .fatal => .fatal
  | .panicked => .panicked

/-- Value of a most-significant-first digit string folded onto an
accumulator: the mathematical reading of the parser's digit loop without
any width cap. -/
def digitsVal : List Char → Nat → Nat
  | [], acc => acc
  | c :: cs, acc => digitsVal cs (acc * 10 + (c.toNat - 48))

/-- The decimal digit character for a value below ten. -/
def decDigit : Nat → Char
  | 0 => '0'
  | 1 => '1'
  | 2 => '2'
  | 3 => '3'
  | 4 => '4'
  | 5 => '5'
  | 6 => '6'
  | 7 => '7'
  | 8 => '8'
  | 9 => '9'
  | _ => '0'

/-- Most-significant-first decimal digit list of a natural number (empty
for zero). -/
def natDigits : Nat → List Char
  | 0 => []
  | n + 1 => natDigits ((n + 1) / 10) ++ [decDigit ((n + 1) % 10)]
decreasing_by exact Nat.div_lt_self (Nat.succ_pos n) (by omega)

/-- The base-10 text form of a natural number. -/
def natRepr (n : Nat) : String := if n = 0 then "0" else String.mk (natDigits n)

/-- The unsigned numeric fields of the snapshot, each with its declared
width in the Go source (uint8, uint16 or uint32). -/
inductive UField where
  | east | easf01 | easf02 | easf03 | easf04 | easf05 | easf06 | easf07
  | easf08 | easf09 | easf10 | easd01 | easd02 | easd03 | easd04 | eait
  | erq1 | erq2 | erq3 | erq4 | irms1 | irms2 | irms3 | urms1 | urms2
  | urms3 | pref | pcoup | sinsts | sinsti | relais
  deriving Repr, DecidableEq

/-- The field identifier of an unsigned numeric field, as matched by the
switch in proceedLine. -/
def UField.ident : UField → String
  | .east => "east"
  | .easf01 => "easf01"
  | .easf02 => "easf02"
  | .easf03 => "easf03"
  | .easf04 => "easf04"
  | .easf05 => "easf05"
  | .easf06 => "easf06"
  | .easf07 => "easf07"
  | .easf08 => "easf08"
  | .easf09 => "easf09"
  | .easf10 => "easf10"
  | .easd01 => "easd01"
  | .easd02 => "easd02"
  | .easd03 => "easd03"
  | .easd04 => "easd04"
  | .eait => "eait"
  | .erq1 => "erq1"
  | .erq2 => "erq2"
  | .erq3 => "erq3"
  | .erq4 => "erq4"
  | .irms1 => "irms1"
  | .irms2 => "irms2"
  | .irms3 => "irms3"
  | .urms1 => "urms1"
  | .urms2 => "urms2"
  | .urms3 => "urms3"
  | .pref => "pref"
  | .pcoup => "pcoup"
  | .sinsts => "sinsts"
  | .sinsti => "sinsti"
  | .relais => "relais"

/-- The declared bit width of an unsigned numeric field in the source. -/
def UField.width : UField → Nat
  | .east => 32
  | .easf01 => 32
  | .easf02 => 32
  | .easf03 => 32
  | .easf04 => 32
  | .easf05 => 32
  | .easf06 => 32
  | .easf07 => 32
  | .easf08 => 32
  | .easf09 => 32
  | .easf10 => 32
  | .easd01 => 32
  | .easd02 => 32
  | .easd03 => 32
  | .easd04 => 32
  | .eait => 32
  | .erq1 => 32
  | .erq2 => 32
  | .erq3 => 32
  | .erq4 => 32
  | .irms1 => 16
  | .irms2 => 16
  | .irms3 => 16
  | .urms1 => 16
  | .urms2 => 16
  | .urms3 => 16
  | .pref => 8
  | .pcoup => 8
  | .sinsts => 16
  | .sinsti => 16
  | .relais => 8

/-- Read an unsigned numeric field out of a snapshot. -/
def UField.get : UField → linkyValues → Nat
  | .east, v => v.east
  | .easf01, v => v.easf01
  | .easf02, v => v.easf02
  | .easf03, v => v.easf03
  | .easf04, v => v.easf04
  | .easf05, v => v.easf05
  | .easf06, v => v.easf06
  | .easf07, v => v.easf07
  | .easf08, v => v.easf08
  | .easf09, v => v.easf09
  | .easf10, v => v.easf10
  | .easd01, v => v.easd01
  | .easd02, v => v.easd02
  | .easd03, v => v.easd03
  | .easd04, v => v.easd04
  | .eait, v => v.eait
  | .erq1, v => v.erq1
  | .erq2, v => v.erq2
  | .erq3, v => v.erq3
  | .erq4, v => v.erq4
  | .irms1, v => v.irms1
  | .irms2, v => v.irms2
  | .irms3, v => v.irms3
  | .urms1, v => v.urms1
  | .urms2, v => v.urms2
  | .urms3, v => v.urms3
  | .pref, v => v.pref
  | .pcoup, v => v.pcoup
  | .sinsts, v => v.sinsts
  | .sinsti, v => v.sinsti
  | .relais, v => v.relais

/-- The three signed 16-bit per-phase drawn-power fields. -/
inductive SPhase where
  | p1 | p2 | p3
  deriving Repr, DecidableEq

/-- Identifier of a signed per-phase power field. -/
def SPhase.ident : SPhase → String
  | .p1 => "sinsts1"
  | .p2 => "sinsts2"
  | .p3 => "sinsts3"

/-- Read a signed per-phase power field out of a snapshot. -/
def SPhase.get : SPhase → linkyValues → Int
  | .p1, v => v.sinsts1
  | .p2, v => v.sinsts2
  | .p3, v => v.sinsts3

/-- The six two-value peak-management fields. -/
inductive PMField where
  | dpm1 | fpm1 | dpm2 | fpm2 | dpm3 | fpm3
  deriving Repr, DecidableEq

/-- Identifier of a peak-management field. -/
def PMField.ident : PMField → String
  | .dpm1 => "dpm1"
  | .fpm1 => "fpm1"
  | .dpm2 => "dpm2"
  | .fpm2 => "fpm2"
  | .dpm3 => "dpm3"
  | .fpm3 => "fpm3"

/-- Label stored for a peak-management field. -/
def PMField.lab : PMField → linkyValues → String
  | .dpm1, v => v.dpm1
  | .fpm1, v => v.fpm1
  | .dpm2, v => v.dpm2
  | .fpm2, v => v.fpm2
  | .dpm3, v => v.dpm3
  | .fpm3, v => v.fpm3

/-- Timestamp stored for a peak-management field. -/
def PMField.tstamp : PMField → linkyValues → String
  | .dpm1, v => v.dpm1_timestamp
  | .fpm1, v => v.fpm1_timestamp
  | .dpm2, v => v.dpm2_timestamp
  | .fpm2, v => v.fpm2_timestamp
  | .dpm3, v => v.dpm3_timestamp
  | .fpm3, v => v.fpm3_timestamp

example : proceedLine initValues "east\x091234567" =
    some { initValues with east := 1234567 } := by decide

example : proceedLine initValues "east" = none := by decide

example : readSerial true [.line "\x02", .line "prm\x09X", .line "\x03"] initValues =
    .ok { initValues with prm := "X" } := by decide

theorem decDigit_isDigit (d : Nat) : (decDigit d).isDigit = true := by
  unfold decDigit
  split <;> decide

theorem decDigit_val (d : Nat) (h : d < 10) : (decDigit d).toNat - 48 = d := by
  interval_cases d <;> decide

theorem isDigit_ne_tab {c : Char} (h : c.isDigit = true) : c ≠ tabChar := by
  intro he
  rw [he] at h
  exact absurd h (by decide)

theorem isDigit_ne_minus {c : Char} (h : c.isDigit = true) : c ≠ '-' := by
  intro he
  rw [he] at h
  exact absurd h (by decide)

theorem isDigit_ne_plus {c : Char} (h : c.isDigit = true) : c ≠ '+' := by
  intro he
  rw [he] at h
  exact absurd h (by decide)

theorem digitsVal_append (xs ys : List Char) : ∀ acc,
    digitsVal (xs ++ ys) acc = digitsVal ys (digitsVal xs acc) := by
  induction xs with
  | nil => intro acc; rfl
  | cons c cs ih => intro acc; exact ih _

theorem digitsVal_ge (cs : List Char) : ∀ acc, acc ≤ digitsVal cs acc := by
  induction cs with
  | nil => intro acc; exact le_refl acc
  | cons c cs ih =>
    intro acc
    calc acc ≤ acc * 10 + (c.toNat - 48) := by omega
    _ ≤ digitsVal cs (acc * 10 + (c.toNat - 48)) := ih _

theorem natDigits_digit (n : Nat) : ∀ c ∈ natDigits n, c.isDigit = true := by
  induction n using Nat.strong_induction_on with
  | _ n ih =>
    match n with
    | 0 => intro c hc; simp [natDigits] at hc
    | m + 1 =>
      intro c hc
      rw [natDigits] at hc
      rcases List.mem_append.mp hc with h | h
      · exact ih _ (Nat.div_lt_self (Nat.succ_pos m) (by omega)) c h
      · rw [List.mem_singleton] at h
        rw [h]
        exact decDigit_isDigit _

theorem digitsVal_natDigits (n : Nat) : ∀ acc,
    digitsVal (natDigits n) acc = acc * 10 ^ (natDigits n).length + n := by
  induction n using Nat.strong_induction_on with
  | _ n ih =>
    match n with
    | 0 => intro acc; simp [natDigits, digitsVal]
    | m + 1 =>
      intro acc
      have hq : (m + 1) / 10 < m + 1 := Nat.div_lt_self (Nat.succ_pos m) (by omega)
      have hd : (decDigit ((m + 1) % 10)).toNat - 48 = (m + 1) % 10 :=
        decDigit_val _ (Nat.mod_lt _ (by omega))
      rw [natDigits, digitsVal_append, ih _ hq, List.length_append, List.length_singleton]
      have hval : ∀ X : Nat,
          digitsVal [decDigit ((m + 1) % 10)] X = X * 10 + (m + 1) % 10 := by
        intro X
        show X * 10 + ((decDigit ((m + 1) % 10)).toNat - 48) = _
        rw [hd]
      rw [hval, pow_succ]
      have hexp : (acc * 10 ^ (natDigits ((m + 1) / 10)).length + (m + 1) / 10) * 10
            + (m + 1) % 10
          = acc * (10 ^ (natDigits ((m + 1) / 10)).length * 10)
            + (10 * ((m + 1) / 10) + (m + 1) % 10) := by ring
      rw [hexp, Nat.div_add_mod]

theorem parseUintLoop_of_le (m : Nat) (cs : List Char) : ∀ acc,
    (∀ c ∈ cs, c.isDigit = true) → digitsVal cs acc ≤ m →
    parseUintLoop m cs acc = digitsVal cs acc := by
  induction cs with
  | nil => intro acc _ _; rfl
  | cons c cs ih =>
    intro acc hd hle
    have hc : c.isDigit = true := hd c (List.mem_cons_self c cs)
    have hge : acc * 10 + (c.toNat - 48) ≤ digitsVal cs (acc * 10 + (c.toNat - 48)) :=
      digitsVal_ge cs _
    have hle2 : digitsVal cs (acc * 10 + (c.toNat - 48)) ≤ m := hle
    simp only [parseUintLoop, hc, if_true]
    rw [if_neg (by omega)]
    exact ih _ (fun x hx => hd x (List.mem_cons_of_mem c hx)) hle2

theorem parseUintLoop_sat (m : Nat) (cs : List Char) : ∀ acc,
    (∀ c ∈ cs, c.isDigit = true) → acc ≤ m → m < digitsVal cs acc →
    parseUintLoop m cs acc = m := by
  induction cs with
  | nil =>
    intro acc _ hacc hlt
    exact absurd hlt (by simp [digitsVal]; omega)
  | cons c cs ih =>
    intro acc hd hacc hlt
    have hc : c.isDigit = true := hd c (List.mem_cons_self c cs)
    have hlt2 : m < digitsVal cs (acc * 10 + (c.toNat - 48)) := hlt
    simp only [parseUintLoop, hc, if_true]
    by_cases hov : acc * 10 + (c.toNat - 48) > m
    · rw [if_pos hov]
    · rw [if_neg hov]
      exact ih _ (fun x hx => hd x (List.mem_cons_of_mem c hx)) (by omega) hlt2

theorem goParseUint_natRepr (n m : Nat) (h : n ≤ m) : goParseUint (natRepr n) m = n := by
  by_cases h0 : n = 0
  · subst h0
    show parseUintLoop m ['0'] 0 = 0
    simp only [parseUintLoop]
    rw [if_pos (by decide)]
    rw [show (0 * 10 + ('0'.toNat - 48)) = 0 from rfl, if_neg (by omega)]
  · rw [natRepr, if_neg h0]
    show parseUintLoop m (natDigits n) 0 = n
    have hv : digitsVal (natDigits n) 0 = n := by
      rw [digitsVal_natDigits]; simp
    rw [parseUintLoop_of_le m _ 0 (natDigits_digit n) (by rw [hv]; exact h), hv]

theorem goParseUint_sat (s : String) (m : Nat)
    (hd : ∀ c ∈ s.data, c.isDigit = true) (hv : m < digitsVal s.data 0) :
    goParseUint s m = m :=
  parseUintLoop_sat m s.data 0 hd (Nat.zero_le m) hv

theorem natRepr_no_tab (n : Nat) : ∀ c ∈ (natRepr n).data, c ≠ tabChar := by
  by_cases h0 : n = 0
  · subst h0; intro c hc; simp [natRepr] at hc; rw [hc]; decide
  · rw [natRepr, if_neg h0]
    intro c hc
    exact isDigit_ne_tab (natDigits_digit n c hc)

theorem splitTabAux_no_tab (cs : List Char) : ∀ cur,
    (∀ c ∈ cs, c ≠ tabChar) → splitTabAux cs cur = [String.mk (cur.reverse ++ cs)] := by
  induction cs with
  | nil => intro cur _; simp [splitTabAux]
  | cons c cs ih =>
    intro cur h
    have hc : c ≠ tabChar := h c (List.mem_cons_self c cs)
    simp only [splitTabAux, if_neg hc]
    rw [ih (c :: cur) (fun x hx => h x (List.mem_cons_of_mem c hx))]
    simp

theorem splitTabAux_sep (xs : List Char) : ∀ cur (ys : List Char),
    (∀ c ∈ xs, c ≠ tabChar) →
    splitTabAux (xs ++ tabChar :: ys) cur =
      String.mk (cur.reverse ++ xs) :: splitTabAux ys [] := by
  induction xs with
  | nil =>
    intro cur ys _
    simp only [List.nil_append, splitTabAux, if_pos rfl]
    simp
  | cons c cs ih =>
    intro cur ys h
    have hc : c ≠ tabChar := h c (List.mem_cons_self c cs)
    show (if c = tabChar then String.mk cur.reverse :: splitTabAux (cs ++ tabChar :: ys) []
      else splitTabAux (cs ++ tabChar :: ys) (c :: cur)) = _
    rw [if_neg hc, ih (c :: cur) ys (fun x hx => h x (List.mem_cons_of_mem c hx))]
    simp

theorem splitTab_field (id tok : String)
    (hid : ∀ c ∈ id.data, c ≠ tabChar) (htok : ∀ c ∈ tok.data, c ≠ tabChar) :
    splitTab (id ++ "\x09" ++ tok) = [id, tok] := by
  have hd : (id ++ "\x09" ++ tok).data = id.data ++ tabChar :: tok.data := by
    rw [String.data_append, String.data_append]
    show (id.data ++ ['\x09']) ++ tok.data = _
    rw [List.append_assoc]
    rfl
  rw [splitTab, hd, splitTabAux_sep id.data [] tok.data hid,
    splitTabAux_no_tab tok.data [] htok]
  rfl

theorem goParseInt16_sat_pos (c : Char) (cs : List Char)
    (hd : ∀ x ∈ c :: cs, x.isDigit = true)
    (hv : 2 ^ 15 - 1 < digitsVal (c :: cs) 0) :
    goParseInt16 (String.mk (c :: cs)) = 2 ^ 15 - 1 := by
  have hc : c.isDigit = true := hd c (List.mem_cons_self c cs)
  have h1 : c ≠ '-' := isDigit_ne_minus hc
  have h2 : c ≠ '+' := isDigit_ne_plus hc
  have hun : parseUintLoop (2 ^ 64 - 1) (c :: cs) 0 ≥ 2 ^ 15 := by
    by_cases hle : digitsVal (c :: cs) 0 ≤ 2 ^ 64 - 1
    · rw [parseUintLoop_of_le _ _ _ hd hle]; omega
    · rw [parseUintLoop_sat _ _ _ hd (Nat.zero_le _) (by omega)]; norm_num
  simp only [goParseInt16]
  rw [if_neg (by simp [h1, h2])]
  rw [if_neg (by simp [h1]), if_pos hun]

theorem goParseInt16_sat_neg (cs : List Char) (hne : cs ≠ [])
    (hd : ∀ x ∈ cs, x.isDigit = true)
    (hv : 2 ^ 15 < digitsVal cs 0) :
    goParseInt16 (String.mk ('-' :: cs)) = -(2 ^ 15) := by
  have hun : parseUintLoop (2 ^ 64 - 1) cs 0 > 2 ^ 15 := by
    by_cases hle : digitsVal cs 0 ≤ 2 ^ 64 - 1
    · rw [parseUintLoop_of_le _ _ _ hd hle]; omega
    · rw [parseUintLoop_sat _ _ _ hd (Nat.zero_le _) (by omega)]; norm_num
  simp only [goParseInt16, true_or, if_true, decide_True]
  split
  · exact absurd rfl hne
  · rw [if_pos hun]

theorem goParseInt16_sat_posS (s : String)
    (hne : s.data ≠ []) (hd : ∀ x ∈ s.data, x.isDigit = true)
    (hv : 2 ^ 15 - 1 < digitsVal s.data 0) :
    goParseInt16 s = 2 ^ 15 - 1 := by
  obtain ⟨ls⟩ := s
  rcases ls with _ | ⟨c, cs⟩
  · exact absurd rfl hne
  · exact goParseInt16_sat_pos c cs hd hv

theorem goParseInt16_sat_negS (s : String)
    (hne : s.data ≠ []) (hd : ∀ x ∈ s.data, x.isDigit = true)
    (hv : 2 ^ 15 < digitsVal s.data 0) :
    goParseInt16 ("-" ++ s) = -(2 ^ 15) := by
  obtain ⟨ls⟩ := s
  exact goParseInt16_sat_neg ls hne hd hv

theorem readSerialLoop_skip (pre : List String) :
    ∀ (rest : List LineRead) (v : linkyValues),
    (∀ l ∈ pre, goContains l stxChar = false) →
    readSerialLoop (pre.map .line ++ rest) false v = readSerialLoop rest false v := by
  induction pre with
  | nil => intro rest v _; rfl
  | cons l ls ih =>
    intro rest v h
    have hl : goContains l stxChar = false := h l (List.mem_cons_self l ls)
    show readSerialLoop (.line l :: (ls.map .line ++ rest)) false v = _
    simp only [readSerialLoop, Bool.false_and, Bool.false_or, hl, if_false,
      Bool.false_eq_true, ite_false]
    exact ih rest v (fun x hx => h x (List.mem_cons_of_mem l hx))

theorem readSerialLoop_inframe (mid : List String) :
    ∀ (etx : String) (rest : List LineRead) (v w : linkyValues),
    (∀ l ∈ mid, goContains l etxChar = false) →
    decodeLines v mid = some w → goContains etx etxChar = true →
    readSerialLoop (mid.map .line ++ .line etx :: rest) true v = .ok w := by
  induction mid with
  | nil =>
    intro etx rest v w _ hdec hetx
    have hw : v = w := by
      simpa [decodeLines] using hdec
    subst hw
    show readSerialLoop (.line etx :: rest) true v = .ok v
    simp only [readSerialLoop, Bool.true_and, hetx, if_true]
  | cons l ls ih =>
    intro etx rest v w h hdec hetx
    have hl : goContains l etxChar = false := h l (List.mem_cons_self l ls)
    rcases hpl : proceedLine v l with _ | v1
    · rw [decodeLines, hpl] at hdec
      exact absurd hdec (by simp)
    · rw [decodeLines, hpl] at hdec
      show readSerialLoop (.line l :: (ls.map .line ++ .line etx :: rest)) true v = .ok w
      simp only [readSerialLoop, Bool.true_and, hl, Bool.true_or, if_true,
        Bool.false_eq_true, ite_false, hpl]
      exact ih etx rest v1 w (fun x hx => h x (List.mem_cons_of_mem l hx)) hdec hetx

theorem readSerialLoop_no_break (pre : List String) :
    ∀ (tail : List LineRead),
    (∀ b v, readSerialLoop tail b v = .streamErr) →
    (∀ l ∈ pre, goContains l etxChar = false) →
    (∀ l ∈ pre, ∀ u : linkyValues, proceedLine u l ≠ none) →
    ∀ (b : Bool) (v : linkyValues),
    readSerialLoop (pre.map .line ++ tail) b v = .streamErr := by
  induction pre with
  | nil => intro tail htail _ _ b v; exact htail b v
  | cons l ls ih =>
    intro tail htail h3 hdec b v
    have hl : goContains l etxChar = false := h3 l (List.mem_cons_self l ls)
    have hrest3 : ∀ x ∈ ls, goContains x etxChar = false :=
      fun x hx => h3 x (List.mem_cons_of_mem l hx)
    have hrestd : ∀ x ∈ ls, ∀ u : linkyValues, proceedLine u x ≠ none :=
      fun x hx => hdec x (List.mem_cons_of_mem l hx)
    rcases hpl : proceedLine v l with _ | v1
    · exact absurd hpl (hdec l (List.mem_cons_self l ls) v)
    · show readSerialLoop (.line l :: (ls.map .line ++ tail)) b v = .streamErr
      simp only [readSerialLoop, hl, Bool.and_false, Bool.false_eq_true, ite_false, hpl]
      cases hb : (b || goContains l stxChar) with
      | true =>
        simp only [if_true]
        exact ih tail htail hrest3 hrestd true v1
      | false =>
        simp only [Bool.false_eq_true, ite_false]
        exact ih tail htail hrest3 hrestd false v

/-- Claim C1 counterexample: when the serial device cannot be opened, the
collection cycle is process-fatal (log.Fatal), not the recoverable
per-cycle stream error the claim describes. -/
theorem C1_counterexample :
    Collect false [] = .fatal ∧ Collect false [] ≠ .streamErr := by decide

/-- Claim C1 (amended): if the serial byte source cannot be opened at the
start of a collection cycle the process is terminated fatally via
log.Fatal; only a failure of a read after a successful open is reported
upward as a recoverable per-cycle error yielding no Snapshot, and the next
scrape retries from scratch. -/
theorem C1_amended (stream : List LineRead) (v : linkyValues) :
    readSerial false stream v = .fatal ∧
    Collect false stream = .fatal ∧
    readSerial true (.fail :: stream) v = .streamErr ∧
    Collect true (.fail :: stream) = .streamErr :=
  ⟨rfl, rfl, rfl, rfl⟩

/-- Claim C2: decoding is claimed total on every in-frame line, including
lines with fewer payload tokens than the identifier's arity.  The code
violates this: the line "east" (no tab) makes proceedLine index data[1]
out of range, a runtime panic (modelled by none), and a peak-management
line with a single payload token panics on data[2]; the panic aborts the
whole frame instead of dropping the malformed field. -/
theorem C2_malformed_line_panic :
    proceedLine initValues "east" = none ∧
    proceedLine initValues ("dpm1" ++ "\x09" ++ "231201120000") = none ∧
    readSerial true [.line "\x02", .line "east", .line "prm\x09X", .line "\x03"] initValues
      = .panicked := by decide

/-- Claim C3 counterexample: after east has been set to 1234567 by a valid
line, decoding the line with identifier east and payload "abc" does not
leave east unchanged: the ignored parse error makes the field 0. -/
theorem C3_counterexample :
    (proceedLine { initValues with east := 1234567 } "east\x09abc").map linkyValues.east
      = some 0 := by decide

/-- Claim C3 (amended): decoding a numeric line whose payload token fails
to parse overwrites the field with the value the failed strconv call
returns (0 on a syntax error such as "abc", the width's maximum on range
overflow) instead of keeping the previous value, and does not abort
decoding of subsequent lines in the same frame. -/
theorem C3_amended :
    (∀ (v : linkyValues) (s : String), (∀ c ∈ s.data, c ≠ tabChar) →
      proceedLine v ("east" ++ "\x09" ++ s)
        = some { v with east := goParseUint s (2 ^ 32 - 1) }) ∧
    goParseUint "abc" (2 ^ 32 - 1) = 0 ∧
    readSerialLoop [.line "east\x09abc", .line "prm\x09X", .line "\x03"] true
        { initValues with east := 1234567 } = .ok { initValues with prm := "X" } := by
  refine ⟨?_, by decide, by decide⟩
  intro v s hs
  rw [show proceedLine v ("east" ++ "\x09" ++ s)
      = proceedTokens v (splitTab ("east" ++ "\x09" ++ s)) from rfl,
    splitTab_field "east" s (by decide) hs]
  rfl

/-- Witness for the amended claim C3 at the concrete payload "abc". -/
theorem C3_amended_witness :
    proceedLine initValues ("east" ++ "\x09" ++ "abc")
      = some { initValues with east := goParseUint "abc" (2 ^ 32 - 1) } :=
  C3_amended.1 initValues "abc" (by decide)

/-- Claim C4 counterexample: a stream whose frame is a start-marker line
immediately followed by an end-marker line (no field line in between) does
not emit zero samples: Collect succeeds and emits the full fixed set of 37
samples over the zero-valued snapshot. -/
theorem C4_counterexample :
    Collect true [.line "\x02", .line "\x03"] = .ok (project initValues) ∧
    (project initValues).length = 37 := by decide

/-- Claim C4 (amended): a Snapshot is projected whenever a frame start and
a frame end marker were both observed, with no requirement of a field line
between them; a start-marker line immediately followed by an end-marker
line yields the complete non-empty fixed sample list over the zero-valued
snapshot. -/
theorem C4_amended (l1 l2 : String)
    (h1 : goContains l1 stxChar = true)
    (h3 : proceedLine initValues l1 = some initValues)
    (h4 : goContains l2 etxChar = true) :
    Collect true [.line l1, .line l2] = .ok (project initValues) ∧
    project initValues ≠ [] := by
  have hr : readSerial true [.line l1, .line l2] initValues = .ok initValues := by
    show readSerialLoop [.line l1, .line l2] false initValues = .ok initValues
    simp only [readSerialLoop, Bool.false_and, Bool.false_eq_true, ite_false,
      Bool.false_or, h1, if_true, h3, Bool.true_and, h4]
  refine ⟨?_, by simp [project]⟩
  simp only [Collect, hr]

/-- Witness for the amended claim C4 at the concrete two-line frame. -/
theorem C4_amended_witness :
    Collect true [.line "\x02", .line "\x03"] = .ok (project initValues) ∧
    project initValues ≠ [] :=
  C4_amended "\x02" "\x03" (by decide) (by decide) (by decide)

/-- Claim C5: for every byte stream containing a well-formed frame (a
start-marker line, field lines, then an end-marker line), the Framer
returns the Snapshot obtained by decoding exactly the lines between the
two markers (the fold of the Field Decoder over them), and the end-marker
line itself contributes no field. -/
theorem C5_wellformed_frame (pre mid : List String) (stx etx : String)
    (rest : List LineRead) (v w : linkyValues)
    (hpre : ∀ l ∈ pre, goContains l stxChar = false)
    (hstx : goContains stx stxChar = true)
    (hstxdec : proceedLine v stx = some v)
    (hmid : ∀ l ∈ mid, goContains l etxChar = false)
    (hdec : decodeLines v mid = some w)
    (hetx : goContains etx etxChar = true) :
    readSerial true (pre.map .line ++ (.line stx :: (mid.map .line ++ .line etx :: rest))) v
      = .ok w := by
  show readSerialLoop (pre.map .line ++ (.line stx :: (mid.map .line ++ .line etx :: rest)))
      false v = .ok w
  rw [readSerialLoop_skip pre _ v hpre]
  show readSerialLoop (.line stx :: (mid.map .line ++ .line etx :: rest)) false v = .ok w
  simp only [readSerialLoop, Bool.false_and, Bool.false_eq_true, ite_false,
    Bool.false_or, hstx, if_true, hstxdec]
  exact readSerialLoop_inframe mid etx rest v w hmid hdec hetx

/-- Witness for claim C5 at a one-field frame. -/
theorem C5_witness :
    readSerial true [.line "\x02", .line "prm\x09X", .line "\x03"] initValues
      = .ok { initValues with prm := "X" } :=
  C5_wellformed_frame [] ["prm\x09X"] "\x02" "\x03" [] initValues
    { initValues with prm := "X" }
    (by simp) (by decide) (by decide) (by decide) (by decide) (by decide)

/-- Claim C6 counterexample: a line containing both the 0x02 and 0x03
markers, read while not yet inside a frame, is forwarded to the Field
Decoder (it sets prm here) and does not end the frame (with no further
line the cycle is a stream error, not a completed frame). -/
theorem C6_counterexample :
    readSerial true [.line "prm\x0942\x02\x03", .line "\x03"] initValues
      = .ok { initValues with prm := "42\x02\x03" } ∧
    readSerial true [.line "prm\x0942\x02\x03"] initValues = .streamErr := by decide

/-- Claim C6 (amended): the Framer checks the end marker first but gated
on already being inside a frame: a line containing both markers read while
inside a frame ends the frame and is not forwarded to the Field Decoder,
while the same line read while not inside a frame starts the frame, is
itself handed to the Field Decoder, and does not end the frame. -/
theorem C6_amended (l : String) (rest : List LineRead) (v : linkyValues)
    (h1 : goContains l stxChar = true) (h2 : goContains l etxChar = true) :
    readSerialLoop (.line l :: rest) true v = .ok v ∧
    readSerialLoop (.line l :: rest) false v =
      (match proceedLine v l with
       | none => .panicked
       | some v1 => readSerialLoop rest true v1) := by
  constructor
  · simp only [readSerialLoop, Bool.true_and, h2, if_true]
  · simp only [readSerialLoop, Bool.false_and, Bool.false_eq_true, ite_false,
      Bool.false_or, h1, if_true]

/-- Witness for the amended claim C6 at the two-marker line 0x02 0x03. -/
theorem C6_amended_witness :
    readSerialLoop [.line "\x02\x03"] true initValues = .ok initValues ∧
    readSerialLoop [.line "\x02\x03"] false initValues = .streamErr :=
  C6_amended "\x02\x03" [] initValues (by decide) (by decide)

/-- Claim C7: if the stream read fails (device error, EOF, timeout) at any
point before an end marker is seen — whether before or after a start
marker — the Framer aborts with a stream failure, no partial Snapshot is
produced, and the collection cycle emits zero metric samples. -/
theorem C7_stream_failure (pre : List String) (rest : List LineRead) (v : linkyValues)
    (hno : ∀ l ∈ pre, goContains l etxChar = false)
    (hdec : ∀ l ∈ pre, ∀ u : linkyValues, proceedLine u l ≠ none) :
    readSerial true (pre.map .line ++ .fail :: rest) v = .streamErr ∧
    readSerial true (pre.map .line) v = .streamErr ∧
    Collect true (pre.map .line ++ .fail :: rest) = .streamErr := by
  have h1 : ∀ u : linkyValues,
      readSerialLoop (pre.map .line ++ .fail :: rest) false u = .streamErr :=
    fun u => readSerialLoop_no_break pre (.fail :: rest) (fun _ _ => rfl) hno hdec false u
  have h0 : readSerialLoop (pre.map .line) false v = .streamErr := by
    have h := readSerialLoop_no_break pre [] (fun _ _ => rfl) hno hdec false v
    simpa using h
  have hs : readSerial true (pre.map .line ++ .fail :: rest) initValues = .streamErr :=
    h1 initValues
  refine ⟨h1 v, h0, ?_⟩
  simp only [Collect, hs]

/-- Witness for claim C7: a read failure right after a start marker and a
field line. -/
theorem C7_witness :
    readSerial true [.line "\x02", .line "prm\x09X", .fail] initValues = .streamErr ∧
    readSerial true [.line "\x02", .line "prm\x09X"] initValues = .streamErr ∧
    Collect true [.line "\x02", .line "prm\x09X", .fail] = .streamErr := by
  have h := C7_stream_failure ["\x02", "prm\x09X"] [] initValues
    (by decide)
    (by
      intro l hl u
      simp only [List.mem_cons, List.not_mem_nil, or_false] at hl
      rcases hl with rfl | rfl
      · intro hcontra; exact Option.noConfusion hcontra
      · intro hcontra; exact Option.noConfusion hcontra)
  exact h

/-- Claim C8: numeric field decoding round-trips: for every unsigned
numeric field and every value in the full representable range of the
field's declared width (8, 16 or 32 bits), decoding a field line whose
payload token is the base-10 text form of that value stores exactly that
value in the field. -/
theorem C8_numeric_roundtrip (f : UField) (v : linkyValues) (n : Nat)
    (h : n ≤ 2 ^ f.width - 1) :
    (proceedLine v (f.ident ++ "\x09" ++ natRepr n)).map f.get = some n := by
  have hsplit : splitTab (f.ident ++ "\x09" ++ natRepr n) = [f.ident, natRepr n] :=
    splitTab_field _ _ (by cases f <;> decide) (natRepr_no_tab n)
  rw [show proceedLine v (f.ident ++ "\x09" ++ natRepr n)
      = proceedTokens v (splitTab (f.ident ++ "\x09" ++ natRepr n)) from rfl, hsplit]
  cases f <;> exact congrArg some (goParseUint_natRepr n _ h)

/-- Witness for claim C8 at the top of the uint32 range. -/
theorem C8_witness :
    (proceedLine initValues ("east" ++ "\x09" ++ natRepr 4294967295)).map (UField.get .east)
      = some 4294967295 :=
  C8_numeric_roundtrip .east initValues 4294967295 (by decide)

/-- Claim C9: for every two-value peak-management field line (dpm1..dpm3,
fpm1..fpm3) the decoder stores token 1 as the timestamp and token 2 as the
label; in particular the line dpm1 231201120000 HCHP sets the period-1
peak-start label to "HCHP" and its timestamp to "231201120000". -/
theorem C9_peak_management :
    (∀ (f : PMField) (v : linkyValues) (ts lb : String) (extra : List String),
      (proceedTokens v (f.ident :: ts :: lb :: extra)).map (fun u => (f.lab u, f.tstamp u))
        = some (lb, ts)) ∧
    (proceedLine initValues "dpm1\x09231201120000\x09HCHP").map
        (fun u => (u.dpm1, u.dpm1_timestamp)) = some ("HCHP", "231201120000") := by
  constructor
  · intro f v ts lb extra
    cases f <;> rfl
  · decide

/-- Claim C10: decoding a payload token that is a valid base-10 integer
strictly above what the field's width allows stores the width's maximum
representable value (saturation, not modular wrap, not the previous
value); analogously the signed 16-bit fields saturate to 32767 and, for
negative overflow, to -32768. -/
theorem C10_saturation :
    (∀ (f : UField) (v : linkyValues) (s : String), s.data ≠ [] →
      (∀ c ∈ s.data, c.isDigit = true) → 2 ^ f.width - 1 < digitsVal s.data 0 →
      (proceedLine v (f.ident ++ "\x09" ++ s)).map f.get = some (2 ^ f.width - 1)) ∧
    (∀ (g : SPhase) (v : linkyValues) (s : String), s.data ≠ [] →
      (∀ c ∈ s.data, c.isDigit = true) → 2 ^ 15 - 1 < digitsVal s.data 0 →
      (proceedLine v (g.ident ++ "\x09" ++ s)).map g.get = some (2 ^ 15 - 1)) ∧
    (∀ (g : SPhase) (v : linkyValues) (s : String), s.data ≠ [] →
      (∀ c ∈ s.data, c.isDigit = true) → 2 ^ 15 < digitsVal s.data 0 →
      (proceedLine v (g.ident ++ "\x09" ++ ("-" ++ s))).map g.get = some (-(2 ^ 15))) := by
  refine ⟨?_, ?_, ?_⟩
  · intro f v s hne hd hv
    have hsplit : splitTab (f.ident ++ "\x09" ++ s) = [f.ident, s] :=
      splitTab_field _ _ (by cases f <;> decide) (fun c hc => isDigit_ne_tab (hd c hc))
    rw [show proceedLine v (f.ident ++ "\x09" ++ s)
        = proceedTokens v (splitTab (f.ident ++ "\x09" ++ s)) from rfl, hsplit]
    cases f <;> exact congrArg some (goParseUint_sat s _ hd hv)
  · intro g v s hne hd hv
    have hsplit : splitTab (g.ident ++ "\x09" ++ s) = [g.ident, s] :=
      splitTab_field _ _ (by cases g <;> decide) (fun c hc => isDigit_ne_tab (hd c hc))
    rw [show proceedLine v (g.ident ++ "\x09" ++ s)
        = proceedTokens v (splitTab (g.ident ++ "\x09" ++ s)) from rfl, hsplit]
    cases g <;> exact congrArg some (goParseInt16_sat_posS s hne hd hv)
  · intro g v s hne hd hv
    have htok : ∀ c ∈ ("-" ++ s).data, c ≠ tabChar := by
      intro c hc
      rw [show ("-" ++ s).data = '-' :: s.data from rfl] at hc
      rcases List.mem_cons.mp hc with rfl | hc
      · decide
      · exact isDigit_ne_tab (hd c hc)
    have hsplit : splitTab (g.ident ++ "\x09" ++ ("-" ++ s)) = [g.ident, "-" ++ s] :=
      splitTab_field _ _ (by cases g <;> decide) htok
    rw [show proceedLine v (g.ident ++ "\x09" ++ ("-" ++ s))
        = proceedTokens v (splitTab (g.ident ++ "\x09" ++ ("-" ++ s))) from rfl, hsplit]
    cases g <;> exact congrArg some (goParseInt16_sat_negS s hne hd hv)

/-- Witness for claim C10: an 11-digit payload for the 32-bit east field
stores 4294967295, and a negative overflow on sinsts1 stores -32768. -/
theorem C10_witness :
    (proceedLine initValues ("east" ++ "\x09" ++ "99999999999")).map (UField.get .east)
      = some 4294967295 ∧
    (proceedLine initValues ("sinsts1" ++ "\x09" ++ ("-" ++ "99999"))).map (SPhase.get .p1)
      = some (-32768) := by
  constructor
  · exact C10_saturation.1 .east initValues "99999999999" (by decide) (by decide) (by decide)
  · exact C10_saturation.2.2 .p1 initValues "99999" (by decide) (by decide) (by decide)
